import Mathlib

/-!
Verification of the recommendation-plan generation pipeline of
`src/app.py` (route `generate_recommendation_plan`, lines 485-1096).

The Python code is shallowly embedded: pure fragments become Lean
functions, the external collaborators (Mongo catalog, OpenAI call,
persistence) become explicit parameters, and every Python exception
becomes an `Except` value.  `json.loads` is modelled on the JSON
fragment the route exercises (objects, arrays, strings, integer
numerals, booleans, null); all recursion is structural or fuelled so
that every definition evaluates by `rfl` / `decide`.
-/

set_option maxRecDepth 10000

/-- JSON values as produced by `json.loads`.  Objects keep the raw
member list in parse order; duplicate keys are resolved at lookup time
(last binding wins), matching Python `dict` construction. -/
inductive Json where
  | str : String → Json
  | num : Int → Json
  | bool : Bool → Json
  | null : Json
  | arr : List Json → Json
  | obj : List (String × Json) → Json

/-- The character `{` (written via its code point throughout). -/
def openBraceChar : Char := Char.ofNat 123

/-- The character `}` (written via its code point throughout). -/
def closeBraceChar : Char := Char.ofNat 125

/-- Whitespace for Python `str.split` / `str.strip` and the `\s` class
of the `re` module (ASCII fragment): space, tab, newline, carriage
return, form feed, vertical tab. -/
def pyIsSpace (c : Char) : Bool :=
  c == ' ' || c == '\t' || c == '\n' || c == '\r' || c == Char.ofNat 12 || c == Char.ofNat 11

/-- JSON whitespace accepted between tokens by `json.loads`. -/
def jsonWsChar (c : Char) : Bool :=
  c == ' ' || c == '\t' || c == '\n' || c == '\r'

/-- `list.startswith`-style prefix test on character lists. -/
def listStartsWith : List Char → List Char → Bool
  | [], _ => true
  | _ :: _, [] => false
  | p :: ps, c :: cs => p == c && listStartsWith ps cs

/-- Python `str.replace(pat, repl)`: replace every non-overlapping
occurrence, scanning left to right, never rescanning the replacement.
The fuel is the length of the scanned list, which always suffices. -/
def replaceAllAux (pat repl : List Char) : Nat → List Char → List Char
  | _, [] => []
  | 0, l => l
  | Nat.succ f, c :: rest =>
    if listStartsWith pat (c :: rest) then
      repl ++ replaceAllAux pat repl f ((c :: rest).drop pat.length)
    else
      c :: replaceAllAux pat repl f rest

/-- Python `s.replace(pat, repl)` on strings. -/
def pyReplace (s pat repl : String) : String :=
  String.mk (replaceAllAux pat.toList repl.toList s.toList.length s.toList)

/-- Python `str.lower` (ASCII fragment, which is all the route feeds it). -/
def pyLower (s : String) : String :=
  String.mk (s.toList.map Char.toLower)

/-- Python `str.strip()` with no argument: drop leading and trailing
whitespace. -/
def pyStrip (s : String) : String :=
  String.mk ((((s.toList.dropWhile pyIsSpace).reverse).dropWhile pyIsSpace).reverse)

/-- Helper for `str.split()`: split on whitespace runs, no empty words. -/
def splitWsAux : List Char → List Char → List String
  | [], acc =>
    match acc with
    | [] => []
    | _ :: _ => [String.mk acc.reverse]
  | c :: rest, acc =>
    if pyIsSpace c then
      match acc with
      | [] => splitWsAux rest []
      | _ :: _ => String.mk acc.reverse :: splitWsAux rest []
    else
      splitWsAux rest (c :: acc)

/-- Python `str.split()` with no argument. -/
def pySplitWs (s : String) : List String :=
  splitWsAux s.toList []

/-- Joining words with single spaces, as the route does at lines 793
and 800. -/
def joinSpace : List String → String
  | [] => ("")
  | [w] => w
  | w :: ws => w ++ (" ") ++ joinSpace ws

/-- UTF-8 encoding of one character (standard four-case scheme),
used to model `urllib.parse.quote`. -/
def charUtf8Bytes (c : Char) : List Nat :=
  let n := c.toNat
  if n < 128 then [n]
  else if n < 2048 then [192 + n / 64, 128 + n % 64]
  else if n < 65536 then [224 + n / 4096, 128 + (n / 64) % 64, 128 + n % 64]
  else [240 + n / 262144, 128 + (n / 4096) % 64, 128 + (n / 64) % 64, 128 + n % 64]

/-- Bytes `urllib.parse.quote` leaves unescaped with the default
`safe='/'`: ASCII letters, digits, `_ . - ~` and `/`. -/
def quoteSafeByte (b : Nat) : Bool :=
  (48 ≤ b && b ≤ 57) || (65 ≤ b && b ≤ 90) || (97 ≤ b && b ≤ 122) ||
  b == 45 || b == 46 || b == 95 || b == 126 || b == 47

/-- Upper-case hexadecimal digit, as `urllib.parse.quote` emits. -/
def hexDigitChar (n : Nat) : Char :=
  (("0123456789ABCDEF").toList).getD n ('0')

/-- `urllib.parse.quote(s)` with the default safe set. -/
def pyQuote (s : String) : String :=
  String.mk ((s.toList.flatMap charUtf8Bytes).flatMap
    (fun b =>
      if quoteSafeByte b then [Char.ofNat b]
      else ['%', hexDigitChar (b / 16), hexDigitChar (b % 16)]))

/-- Skip JSON whitespace. -/
def skipJsonWs (cs : List Char) : List Char := cs.dropWhile jsonWsChar

/-- One-character JSON string escapes accepted by `json.loads`
(`\uXXXX` is not modelled; no input of the route uses it). -/
def escPairs : List (Char × Char) :=
  [('n', '\n'), ('t', '\t'), ('r', '\r'), ('b', Char.ofNat 8), ('f', Char.ofNat 12),
   ('"', '"'), ('\\', '\\'), ('/', '/')]

def escChar (e : Char) : Option Char :=
  (escPairs.find? (fun p => p.1 == e)).map Prod.snd

/-- Parse the body of a JSON string after the opening quote; returns
the decoded characters and the remainder after the closing quote. -/
def parseStringBody : Nat → List Char → Option (List Char × List Char)
  | 0, _ => none
  | Nat.succ f, cs =>
    match cs with
    | [] => none
    | c :: rest =>
      if c == '"' then some ([], rest)
      else if c == '\\' then
        match rest with
        | [] => none
        | e :: rest2 =>
          match escChar e with
          | some d => (parseStringBody f rest2).map (fun p => (d :: p.1, p.2))
          | none => none
      else (parseStringBody f rest).map (fun p => (c :: p.1, p.2))

/-- Decimal digit run to a natural number. -/
def digitsVal (ds : List Char) : Nat :=
  ds.foldl (fun a c => a * 10 + (c.toNat - 48)) 0

/-- Parse a JSON integer numeral (the numeric fragment the route's
inputs use; floats are not modelled). -/
def parseIntLit (cs : List Char) : Option (Int × List Char) :=
  match cs with
  | c :: rest =>
    if c == '-' then
      let ds := rest.takeWhile Char.isDigit
      match ds with
      | [] => none
      | _ :: _ => some (-(Int.ofNat (digitsVal ds)), rest.drop ds.length)
    else
      let ds := (c :: rest).takeWhile Char.isDigit
      match ds with
      | [] => none
      | _ :: _ => some (Int.ofNat (digitsVal ds), (c :: rest).drop ds.length)
  | [] => none

/-- Parser state: a plain value, the items of an array being read, or
the members of an object being read (accumulators reversed). -/
inductive PTag where
  | value : PTag
  | items : List Json → PTag
  | fields : List (String × Json) → PTag

/-- Recursive-descent JSON parser, fuelled (structural recursion so
that concrete inputs evaluate by `rfl`).  Models `json.loads` on the
fragment described at `Json`. -/
def parseJ : Nat → PTag → List Char → Option (Json × List Char)
  | 0, _, _ => none
  | Nat.succ f, PTag.value, cs =>
    let cs := skipJsonWs cs
    match cs with
    | [] => none
    | c :: rest =>
      if c == '"' then
        (parseStringBody (rest.length + 1) rest).map (fun p => (Json.str (String.mk p.1), p.2))
      else if c == '[' then
        match skipJsonWs rest with
        | ']' :: rest2 => some (Json.arr [], rest2)
        | _ => parseJ f (PTag.items []) rest
      else if c == openBraceChar then
        match skipJsonWs rest with
        | d :: rest2 =>
          if d == closeBraceChar then some (Json.obj [], rest2)
          else parseJ f (PTag.fields []) rest
        | [] => none
      else if listStartsWith ("true").toList cs then some (Json.bool true, cs.drop 4)
      else if listStartsWith ("false").toList cs then some (Json.bool false, cs.drop 5)
      else if listStartsWith ("null").toList cs then some (Json.null, cs.drop 4)
      else
        (parseIntLit cs).map (fun p => (Json.num p.1, p.2))
  | Nat.succ f, PTag.items acc, cs =>
    match parseJ f PTag.value cs with
    | none => none
    | some (v, rest) =>
      match skipJsonWs rest with
      | c :: rest2 =>
        if c == ',' then parseJ f (PTag.items (v :: acc)) rest2
        else if c == ']' then some (Json.arr (v :: acc).reverse, rest2)
        else none
      | [] => none
  | Nat.succ f, PTag.fields acc, cs =>
    match skipJsonWs cs with
    | c :: rest =>
      if c == '"' then
        (match parseStringBody (rest.length + 1) rest with
        | none => none
        | some (k, rest2) =>
          match skipJsonWs rest2 with
          | d :: rest3 =>
            if d == ':' then
              (match parseJ f PTag.value rest3 with
              | none => none
              | some (v, rest4) =>
                match skipJsonWs rest4 with
                | e :: rest5 =>
                  if e == ',' then
                    parseJ f (PTag.fields ((String.mk k, v) :: acc)) rest5
                  else if e == closeBraceChar then
                    some (Json.obj ((String.mk k, v) :: acc).reverse, rest5)
                  else none
                | [] => none)
            else none
          | [] => none)
      else none
    | [] => none

/-- `json.loads`: parse one value, allowing only trailing whitespace;
`none` models `json.JSONDecodeError`. -/
def json_loads (s : String) : Option Json :=
  let cs := s.toList
  match parseJ (2 * cs.length + 8) PTag.value cs with
  | some (v, rest) => if (skipJsonWs rest).isEmpty then some v else none
  | none => none

/-- If `cs` starts with a whitespace run followed by `ch`, the length
consumed (run + the character); otherwise `none`. -/
def wsThen (ch : Char) (cs : List Char) : Option Nat :=
  let w := (cs.takeWhile pyIsSpace).length
  match cs.drop w with
  | c :: _ => if c == ch then some (w + 1) else none
  | [] => none

/-- Scan a character list, returning the end offset (exclusive) of the
last position where `}` is followed by whitespace and `]` — the
backtracking target of the greedy `.*` in the extraction regex. -/
def scanClose : List Char → Nat → Option Nat → Option Nat
  | [], _, best => best
  | c :: rest, idx, best =>
    let best' :=
      if c == closeBraceChar then
        match wsThen ']' rest with
        | some m => some (idx + 1 + m)
        | none => best
      else best
    scanClose rest (idx + 1) best'

/-- Try to match `re.search(r'(\[\s*{.*}\s*\])', ·, re.DOTALL)` with
the match anchored at the head of `cs`: `[`, whitespace, an opening
brace, then the greedy `.*` up to the last `}` whitespace `]`.
Returns the length of the matched prefix. -/
def tryMatchAt (cs : List Char) : Option Nat :=
  match cs with
  | c :: rest =>
    if c == '[' then
      let wsN := (rest.takeWhile pyIsSpace).length
      match rest.drop wsN with
      | b :: body =>
        if b == openBraceChar then
          match scanClose body 0 none with
          | some endLen => some (1 + wsN + 1 + endLen)
          | none => none
        else none
      | [] => none
    else none
  | [] => none

/-- `re.search` scanning: try the anchored match at every start
position, leftmost first. -/
def searchArray : List Char → Option (List Char)
  | [] => none
  | c :: rest =>
    match tryMatchAt (c :: rest) with
    | some n => some ((c :: rest).take n)
    | none => searchArray rest

/-- Lines 761-763 of `app.py`: extract the JSON array block from the
raw model text; `none` when the pattern does not occur. -/
def extractJsonArray (raw : String) : Option String :=
  (searchArray raw.toList).map String.mk

/-- `re.sub(r',\s*X', 'X', ·)` for a single closing character `X`:
replace every comma + whitespace + `X` by `X`, scanning left to right.
Fuel is the list length, which always suffices. -/
def fixCommaBefore (close : Char) : Nat → List Char → List Char
  | _, [] => []
  | 0, l => l
  | Nat.succ f, c :: rest =>
    if c == ',' then
      match wsThen close rest with
      | some m => close :: fixCommaBefore close f (rest.drop m)
      | none => c :: fixCommaBefore close f rest
    else c :: fixCommaBefore close f rest

/-- Lines 774-775 of `app.py`: strip trailing commas before `}` and
before `]`. -/
def fixTrailingCommas (s : String) : String :=
  let l1 := fixCommaBefore closeBraceChar s.toList.length s.toList
  String.mk (fixCommaBefore ']' l1.length l1)

/-- A sample book inside a recommendation record (line 784 / line 879
of `app.py`): the filler records omit the author key. -/
structure SampleBook where
  title : Json
  author : Option Json

/-- One normalized recommendation record (the dict appended at lines
804-810 of `app.py`). -/
structure Recommendation where
  name : String
  justbookify_link : String
  rationale : Json
  confidence_score : Int
  sample_books : List SampleBook

/-- One book entry of the response plan (lines 824-829 / 925-930). -/
structure BookEntry where
  title : Json
  author : String
  explanation : Json
  justbookify_link : String

/-- One future-month bucket (lines 979-982). -/
structure MonthPlan where
  month : String
  books : List BookEntry

/-- The JSON body the route returns (success: lines 1058-1064,
save failure: 1069-1074, error paths: 602-607, 747-752, 1080-1085). -/
structure PlanResponse where
  current : List BookEntry
  future : List MonthPlan
  recommendations : List Recommendation
  planId : Option String
  message : Option String
  error : Option String

/-- Python truthiness of a JSON value, as used by
`if series_name and sample_books` (line 786). -/
def pyTruthy : Json → Bool
  | Json.str s => !s.isEmpty
  | Json.num n => n != 0
  | Json.bool b => b
  | Json.null => false
  | Json.arr l => !l.isEmpty
  | Json.obj l => !l.isEmpty

/-- Raw dict lookup: last binding wins, as for a Python dict built by
`json.loads` — later duplicate keys overwrite earlier ones. -/
def objLookup (kvs : List (String × Json)) (k : String) : Option Json :=
  match kvs with
  | [] => none
  | (k', v) :: rest =>
    match objLookup rest k with
    | some w => some w
    | none => if k' = k then some v else none

/-- Python `rec.get(key, default)`. -/
def objGet (kvs : List (String × Json)) (k : String) (d : Json) : Json :=
  (objLookup kvs k).getD d

/-- The strip-target substrings of lines 789-792, in source order. -/
def stripTargets : List String :=
  [(" series name"), ("series name"), (" series"), ("series")]

/-- Lines 788-793 of `app.py`: lowercase and remove every occurrence
of each strip target, in order, then collapse whitespace runs. -/
def cleanNameOf (series_name : String) : String :=
  let c0 := pyLower series_name
  let c1 := pyReplace c0 (" series name") ("")
  let c2 := pyReplace c1 ("series name") ("")
  let c3 := pyReplace c2 (" series") ("")
  let c4 := pyReplace c3 ("series") ("")
  let c5 := pyStrip (joinSpace (pySplitWs c4))
  if c5.isEmpty then pyStrip (pyLower series_name) else c5

/-- The fixed generic-suffix token set of line 797. -/
def genericSuffixes : List String :=
  [("comics"), ("books"), ("series"), ("collection"), ("novels")]

/-- Lines 796-801: drop generic-suffix tokens; fall back to the
pre-filter string when that leaves nothing.  This is the un-encoded
search query term. -/
def searchTermPre (series_name : String) : String :=
  let clean_name := cleanNameOf series_name
  let words := pySplitWs clean_name
  let filtered_words := words.filter (fun w => !(genericSuffixes.contains w))
  let filtered_name := pyStrip (joinSpace filtered_words)
  if filtered_name.isEmpty then clean_name else filtered_name

/-- Lines 801-802: URL-encode the term and interpolate it into the
fixed search endpoint template. -/
def mkLink (series_name : String) : String :=
  ("https://www.justbookify.com/search?q=") ++ pyQuote (searchTermPre series_name) ++
    ("&options%5B") ++ ("prefix%5D=last")

/-- Python iteration over `rec.get('books', [])` (line 784): a list
yields its items, a string its characters, a dict its keys in
first-insertion order; other values raise `TypeError`. -/
def iterTitles : Json → Except String (List Json)
  | Json.arr l => Except.ok l
  | Json.str s => Except.ok (s.toList.map (fun c => Json.str (String.mk [c])))
  | Json.obj kvs => Except.ok ((kvs.map Prod.fst).eraseDups.map Json.str)
  | _ => Except.error ("TypeError: object is not iterable")

/-- Lines 780-811 of `app.py` for one parsed element: pull the fields
with their defaults, build the sample-book pairs, keep the element only
when the name is truthy and the sample books are non-empty, and attach
the synthesized link.  A non-dict element raises at `rec.get`
(AttributeError); a kept element whose name is not a string raises at
`series_name.lower()`; a non-integer `likely_score` on a kept element
makes the later `recommendations.sort` comparison raise, modelled here
at the element. -/
def processElem (rec : Json) : Except String (Option Recommendation) :=
  match rec with
  | Json.obj kvs =>
    let series_name := objGet kvs ("name") (Json.str (""))
    let confidence := objGet kvs ("likely_score") (Json.num 8)
    let rationale := objGet kvs ("rationale") (Json.str (""))
    match iterTitles (objGet kvs ("books") (Json.arr [])) with
    | Except.error e => Except.error e
    | Except.ok titles =>
      if pyTruthy series_name && !titles.isEmpty then
        (match series_name with
        | Json.str s =>
          (match confidence with
          | Json.num n =>
            Except.ok (some
              { name := s
                justbookify_link := mkLink s
                rationale := rationale
                confidence_score := n
                sample_books := titles.map (fun t => { title := t, author := some series_name }) })
          | _ => Except.error ("TypeError: unorderable confidence score"))
        | _ => Except.error ("AttributeError: lower"))
      else Except.ok none
  | _ => Except.error ("AttributeError: get")

/-- The per-element loop of lines 780-811, left to right, first raise
aborts the whole parse (caught by the outer handler at line 1076). -/
def processElems : List Json → Except String (List Recommendation)
  | [] => Except.ok []
  | e :: es =>
    match processElem e with
    | Except.error err => Except.error err
    | Except.ok r =>
      match processElems es with
      | Except.error err => Except.error err
      | Except.ok rest =>
        match r with
        | some rec => Except.ok (rec :: rest)
        | none => Except.ok rest

/-- `for rec in recommendations_json` over the parsed top-level value:
an array processes its items; an empty dict or empty string iterates
zero times; anything else raises on the first iteration or is not
iterable at all. -/
def processTop : Json → Except String (List Recommendation)
  | Json.arr elems => processElems elems
  | Json.obj [] => Except.ok []
  | Json.obj (_ :: _) => Except.error ("AttributeError: get")
  | Json.str s => if s.isEmpty then Except.ok [] else Except.error ("AttributeError: get")
  | _ => Except.error ("TypeError: object is not iterable")

/-- Insert a record into a descending-sorted list, after every record
of strictly greater score and before every record of less-or-equal
score — the unique stable position. -/
def insertDesc (x : Recommendation) : List Recommendation → List Recommendation
  | [] => [x]
  | y :: ys =>
    if y.confidence_score ≤ x.confidence_score then x :: y :: ys
    else y :: insertDesc x ys

/-- Stable descending sort by `confidence_score` — extensionally the
sort of line 813-814 (`list.sort(key=confidence_score, reverse=True)`,
which is stable and descending; stable sorts are unique). -/
def sortDesc : List Recommendation → List Recommendation
  | [] => []
  | x :: xs => insertDesc x (sortDesc xs)

/-- Lines 759-811: regex extraction, strict parse, trailing-comma
repair and retry, then the per-element normalization loop.  The record
list is in input order (pre-sort). -/
def parsePreSort (raw : String) : Except String (List Recommendation) :=
  let json_str :=
    match extractJsonArray raw with
    | some s => s
    | none => pyStrip raw
  match json_loads json_str with
  | some v => processTop v
  | none =>
    match json_loads (fixTrailingCommas json_str) with
    | some v => processTop v
    | none => Except.error ("JSONDecodeError")

/-- Lines 759-814: the full response parse including the final
descending stable sort. -/
def parsePipeline (raw : String) : Except String (List Recommendation) :=
  match parsePreSort raw with
  | Except.ok recs => Except.ok (sortDesc recs)
  | Except.error e => Except.error e

/-- A catalog book as stored in the `books` collection, with the
fields the strict query predicates touch. -/
structure Book where
  title : String
  author : String
  genres : List String
  ageMin : Int
  ageMax : Int

/-- Tier 1 of `get_flexible_books` (lines 572-576): genre overlap and
age inside the range. -/
def tierStrict (catalog : List Book) (age : Int) (selected_genres : List String) : List Book :=
  catalog.filter (fun b =>
    b.genres.any (fun g => selected_genres.contains g) &&
    decide (b.ageMin ≤ age) && decide (age ≤ b.ageMax))

/-- Tier 2 of `get_flexible_books` (lines 583-586): age filter only. -/
def tierAge (catalog : List Book) (age : Int) : List Book :=
  catalog.filter (fun b => decide (b.ageMin ≤ age) && decide (age ≤ b.ageMax))

/-- Lines 567-595 of `app.py`: the three-tier flexible book query.
Storage order is modelled by the list order of `catalog`. -/
def get_flexible_books (catalog : List Book) (age : Int) (selected_genres : List String)
    (min_books : Nat) : List Book :=
  let books1 := tierStrict catalog age selected_genres
  if min_books ≤ books1.length then books1
  else
    let books2 := tierAge catalog age
    if min_books ≤ books2.length then books2
    else catalog

/-- Calendar month names. -/
def monthNames : List String :=
  [("January"), ("February"), ("March"), ("April"), ("May"), ("June"), ("July"),
   ("August"), ("September"), ("October"), ("November"), ("December")]

/-- The label `(now.replace(day=1) + timedelta(days=i*31)).strftime('%B')`
(lines 512 and 980).  Starting from the first day of month
`startMonth`, adding `i*31` days for `i ≤ 2` always lands in month
`startMonth + i`, so the label is that month's name. -/
def monthLabel (startMonth i : Nat) : String :=
  monthNames.getD ((startMonth + i) % 12) ("January")

/-- Lines 510-515: the empty reading-plan skeleton used by every
failure path — three months, each with an empty book list. -/
def emptyReadingPlan (startMonth : Nat) : List MonthPlan :=
  (List.range 3).map (fun i => { month := monthLabel startMonth i, books := [] })

/-- Lines 874-896: the fixed fallback records injected when fewer than
6 recommendations exist. -/
def fallbackRecommendations : List Recommendation :=
  [ { name := ("Additional Children's Books")
      confidence_score := 8
      rationale := Json.str ("Additional reading material suitable for this age group")
      sample_books := [{ title := Json.str ("Additional Book 1"), author := none }]
      justbookify_link := ("https://www.justbookify.com/search?q=children+books") }
  , { name := ("Popular Children's Authors")
      confidence_score := 7
      rationale := Json.str ("Well-loved authors in children's literature")
      sample_books := [{ title := Json.str ("Additional Book 2"), author := none }]
      justbookify_link := ("https://www.justbookify.com/search?q=children+books") }
  , { name := ("Educational Books")
      confidence_score := 7
      rationale := Json.str ("Educational and engaging books for learning")
      sample_books := [{ title := Json.str ("Additional Book 3"), author := none }]
      justbookify_link := ("https://www.justbookify.com/search?q=children+books") } ]

/-- Line 872: inject the fallback records exactly when fewer than 6
recommendations exist. -/
def withFallback (recs : List Recommendation) : List Recommendation :=
  if recs.length < 6 then recs ++ fallbackRecommendations else recs

/-- Lines 900-901: `while len(all) < 12: all.extend(all[:12 - len(all)])`.
Fuel 12 suffices for every non-empty list (each iteration adds at
least one element); on the empty list the Python loop never
terminates, while this model returns the list once fuel runs out —
the call site always passes a non-empty list (see claim C10). -/
def extendWhile : Nat → List Recommendation → List Recommendation
  | 0, l => l
  | Nat.succ f, l =>
    if l.length < 12 then extendWhile f (l ++ l.take (12 - l.length))
    else l

/-- Lines 863-904: the ranked list actually partitioned into months —
fallback-injected when short, cyclically extended to length 12, then
truncated to exactly 12. -/
def preparedRecs (recommendations : List Recommendation) : List Recommendation :=
  let all1 :=
    if recommendations.length < 12 then extendWhile 12 (withFallback recommendations)
    else recommendations
  all1.take 12

/-- Lines 821-837 / 921-938: one response book entry from a record —
first sample book, or the placeholder title when the record has none. -/
def recToBook (rec : Recommendation) : BookEntry :=
  match rec.sample_books with
  | b :: _ =>
    { title := b.title, author := rec.name, explanation := rec.rationale,
      justbookify_link := rec.justbookify_link }
  | [] =>
    { title := Json.str (("Book from ") ++ rec.name), author := rec.name,
      explanation := rec.rationale, justbookify_link := rec.justbookify_link }

/-- The placeholder inserted by the month loop (lines 948-955). -/
def additionalBookPlaceholder : BookEntry :=
  { title := Json.str ("Additional Book Recommendation")
    author := ("Various Authors")
    explanation := Json.str ("Additional reading material for this month")
    justbookify_link := ("https://www.justbookify.com/search?q=children+books") }

/-- The placeholder inserted by the final checks (lines 963-974 and
990-1001). -/
def bookRecPlaceholder : BookEntry :=
  { title := Json.str ("Book Recommendation")
    author := ("Various Authors")
    explanation := Json.str ("Reading material for this month")
    justbookify_link := ("https://www.justbookify.com/search?q=children+books") }

/-- `while len(month_books) < 4:` — duplicate the last entry, or insert
the given placeholder when the bucket is empty.  Fuel 4 is exact:
every iteration adds one entry, so at most four run. -/
def padWhile : Nat → BookEntry → List BookEntry → List BookEntry
  | 0, _, l => l
  | Nat.succ f, ph, l =>
    if l.length < 4 then padWhile f ph (l ++ [l.getLast?.getD ph])
    else l

/-- Lines 911-975: build one month bucket from its four-record slice:
map to book entries, pad to 4 and truncate, then the in-loop final
check with the second placeholder. -/
def mkMonthBooks (month_recommendations : List Recommendation) : List BookEntry :=
  let month_books := month_recommendations.map recToBook
  let month_books := (padWhile 4 additionalBookPlaceholder month_books).take 4
  if month_books.length ≠ 4 then (padWhile 4 bookRecPlaceholder month_books).take 4
  else month_books

/-- Lines 984-1005: the final validation pass over the finished
months. -/
def finalValidate (mp : MonthPlan) : MonthPlan :=
  if mp.books.length ≠ 4 then
    { mp with books := (padWhile 4 bookRecPlaceholder mp.books).take 4 }
  else mp

/-- Lines 852-1009: the future-months allocator. -/
def allocateFuture (startMonth : Nat) (recommendations : List Recommendation) :
    List MonthPlan :=
  let alls := preparedRecs recommendations
  ((List.range 3).map (fun month_index =>
    { month := monthLabel startMonth month_index
      books := mkMonthBooks ((alls.drop (month_index * 4)).take 4) })).map finalValidate

/-- Lines 840-848: the defensive current-month fallback entry. -/
def fallbackCurrentEntry (rec : Recommendation) : BookEntry :=
  { title := Json.str (("Book from ") ++ rec.name), author := rec.name,
    explanation := rec.rationale, justbookify_link := rec.justbookify_link }

/-- Lines 817-848: current-month selection — top three records, first
sample book each, with the (unreachable) defensive fallback loop. -/
def mkCurrent (recommendations : List Recommendation) : List BookEntry :=
  let current_recs := (recommendations.take 3).map recToBook
  if current_recs.isEmpty && !recommendations.isEmpty then
    (recommendations.take 3).map fallbackCurrentEntry
  else current_recs

/-- A response carrying the failure skeleton: empty current list,
three empty months, no records, and an error string (the shape of
lines 602-607, 747-752, 1080-1085, 1091-1096). -/
def errorResponse (startMonth : Nat) (msg : String) : PlanResponse :=
  { current := [], future := emptyReadingPlan startMonth, recommendations := [],
    planId := none, message := none, error := some msg }

/-- Lines 485-1096, post-validation fragment of the route: candidate
query, LLM call, parse, allocation, persistence.  The external
collaborators are parameters: `llm` is the outcome of the OpenAI call
(`Except.error` = transport error), `save` the outcome of the
`insert_one` (`Except.ok planId` or the raised error's text).  The
request-validation 400 paths (lines 493-526) are outside this
fragment. -/
def generate_recommendation_plan (startMonth : Nat) (catalog : List Book) (age : Int)
    (selected_genres : List String) (llm : Except String String)
    (save : Except String String) : PlanResponse :=
  let potential_books := get_flexible_books catalog age selected_genres 15
  if potential_books.isEmpty then
    errorResponse startMonth ("No books found in database")
  else
    match llm with
    | Except.error e => errorResponse startMonth (("OpenAI API error: ") ++ e)
    | Except.ok raw =>
      match parsePipeline raw with
      | Except.error e =>
        errorResponse startMonth (("Error processing recommendations: ") ++ e)
      | Except.ok recommendations =>
        let current_recs := mkCurrent recommendations
        let future_recs := allocateFuture startMonth recommendations
        match save with
        | Except.ok plan_id =>
          { current := current_recs, future := future_recs,
            recommendations := recommendations, planId := some plan_id,
            message := some ("Recommendation plan generated and saved successfully"),
            error := none }
        | Except.error save_error =>
          { current := current_recs, future := future_recs,
            recommendations := recommendations, planId := none, message := none,
            error := some (("Recommendations generated but failed to save: ") ++ save_error) }

/-- The ranked list `base` repeated cyclically and cut to `n` entries
(the spec's description of lines 900-904). -/
def cycleTake (n : Nat) (base : List Recommendation) : List Recommendation :=
  ((List.replicate n base).flatten).take n

theorem join_replicate_length (k : Nat) (l : List Recommendation) :
    ((List.replicate k l).flatten).length = k * l.length := by
  induction k with
  | zero => simp
  | succ n ih =>
    simp only [List.replicate_succ, List.flatten_cons, List.length_append, ih, Nat.succ_mul]
    omega

theorem take_join_replicate_le (a c t : Nat) (l : List Recommendation)
    (h : t ≤ a * l.length) :
    ((List.replicate (a + c) l).flatten).take t = ((List.replicate a l).flatten).take t := by
  rw [List.replicate_add, List.flatten_append, List.take_append_eq_append_take]
  have h0 : t - ((List.replicate a l).flatten).length = 0 := by
    rw [join_replicate_length]; omega
  rw [h0, List.take_zero, List.append_nil]

theorem take_join_replicate (a b t : Nat) (l : List Recommendation)
    (ha : t ≤ a * l.length) (hb : t ≤ b * l.length) :
    ((List.replicate a l).flatten).take t = ((List.replicate b l).flatten).take t := by
  rcases Nat.le_total a b with h | h
  · obtain ⟨c, rfl⟩ := Nat.le.dest h
    rw [take_join_replicate_le a c t l ha]
  · obtain ⟨c, rfl⟩ := Nat.le.dest h
    rw [take_join_replicate_le b c t l hb]

theorem extendWhile_stop (f : Nat) (l : List Recommendation) (h : ¬ l.length < 12) :
    extendWhile f l = l := by
  cases f with
  | zero => rfl
  | succ f => rw [extendWhile, if_neg h]

/-- The loop invariant of the cyclic-duplication loop: starting from a
whole number of copies of `base`, the loop's final truncation to 12
yields exactly the 12-entry cyclic prefix of `base`. -/
theorem extendWhile_cycle : ∀ (fuel k : Nat) (base : List Recommendation),
    base ≠ [] → 1 ≤ k → 12 - k * base.length ≤ fuel →
    (extendWhile fuel ((List.replicate k base).flatten)).take 12 = cycleTake 12 base := by
  intro fuel
  induction fuel with
  | zero =>
    intro k base hne hk hf
    have hb1 : 1 ≤ base.length := List.length_pos.mpr hne
    have h12 : 12 ≤ 12 * base.length := by
      calc (12 : Nat) = 12 * 1 := by omega
        _ ≤ 12 * base.length := Nat.mul_le_mul_left 12 hb1
    exact take_join_replicate k 12 12 base (by omega) h12
  | succ f ih =>
    intro k base hne hk hf
    have hb1 : 1 ≤ base.length := List.length_pos.mpr hne
    have hL : ((List.replicate k base).flatten).length = k * base.length :=
      join_replicate_length k base
    have h12m : 12 ≤ 12 * base.length := by
      calc (12 : Nat) = 12 * 1 := by omega
        _ ≤ 12 * base.length := Nat.mul_le_mul_left 12 hb1
    by_cases h12 : ((List.replicate k base).flatten).length < 12
    · rw [extendWhile, if_pos h12]
      by_cases hbig :
          ((List.replicate k base).flatten).length ≤ 12 - ((List.replicate k base).flatten).length
      · rw [List.take_of_length_le hbig]
        have hjoin : (List.replicate k base).flatten ++ (List.replicate k base).flatten =
            (List.replicate (k + k) base).flatten := by
          rw [List.replicate_add, List.flatten_append]
        rw [hjoin]
        apply ih (k + k) base hne (by omega)
        have hkk : (k + k) * base.length = k * base.length + k * base.length := by ring
        have hm1 : 1 ≤ k * base.length := Nat.mul_le_mul hk hb1
        omega
      · push_neg at hbig
        have hlen' : ((List.replicate k base).flatten ++
            ((List.replicate k base).flatten).take (12 - ((List.replicate k base).flatten).length)).length
            = 12 := by
          rw [List.length_append, List.length_take]
          omega
        rw [extendWhile_stop f _ (by omega)]
        rw [List.take_of_length_le (by omega)]
        have hk12 : k ≤ 12 := by
          have : k ≤ k * base.length := by
            calc k = k * 1 := by omega
              _ ≤ k * base.length := Nat.mul_le_mul_left k hb1
          omega
        unfold cycleTake
        rw [show (12 : Nat) = k + (12 - k) from by omega, List.replicate_add,
          List.flatten_append, List.take_append_eq_append_take]
        rw [List.take_of_length_le (by omega : ((List.replicate k base).flatten).length ≤ k + (12 - k))]
        congr 1
        rw [hL]
        have hback : k + (12 - k) - k * base.length = 12 - k * base.length := by omega
        rw [hback]
        apply take_join_replicate k (12 - k) (12 - k * base.length) base (by omega)
        have hge : 12 - k ≤ (12 - k) * base.length := by
          calc 12 - k = (12 - k) * 1 := by omega
            _ ≤ (12 - k) * base.length := Nat.mul_le_mul_left (12 - k) hb1
        have hkm : k ≤ k * base.length := by
          calc k = k * 1 := by omega
            _ ≤ k * base.length := Nat.mul_le_mul_left k hb1
        omega
    · rw [extendWhile_stop (f + 1) _ h12]
      exact take_join_replicate k 12 12 base (by omega) h12m

theorem fallbackRecommendations_ne_nil : fallbackRecommendations ≠ [] := by
  intro h
  simp [fallbackRecommendations] at h

theorem withFallback_ne_nil (recs : List Recommendation) : withFallback recs ≠ [] := by
  unfold withFallback
  by_cases h : recs.length < 6
  · rw [if_pos h]
    intro hnil
    rcases List.append_eq_nil.mp hnil with ⟨-, h2⟩
    exact fallbackRecommendations_ne_nil h2
  · rw [if_neg h]
    intro hnil
    rw [hnil] at h
    simp at h

/-- The truncated list the allocator partitions is exactly the cyclic
12-entry prefix of the fallback-augmented ranked list. -/
theorem preparedRecs_eq (recs : List Recommendation) :
    preparedRecs recs = cycleTake 12 (withFallback recs) := by
  unfold preparedRecs
  by_cases h : recs.length < 12
  · simp only [if_pos h]
    have hne := withFallback_ne_nil recs
    have := extendWhile_cycle 12 1 (withFallback recs) hne (le_refl 1) (by omega)
    simpa using this
  · simp only [if_neg h]
    have h6 : ¬ recs.length < 6 := by omega
    rw [withFallback, if_neg h6]
    have hb1 : 1 ≤ recs.length := by omega
    have h1 : recs.take 12 = ((List.replicate 1 recs).flatten).take 12 := by simp
    rw [h1]
    apply take_join_replicate 1 12 12 recs (by omega)
    calc (12 : Nat) = 12 * 1 := by omega
      _ ≤ 12 * recs.length := Nat.mul_le_mul_left 12 hb1

theorem cycleTake_length (base : List Recommendation) (h : base ≠ []) :
    (cycleTake 12 base).length = 12 := by
  unfold cycleTake
  rw [List.length_take, join_replicate_length]
  have hb1 : 1 ≤ base.length := List.length_pos.mpr h
  have : 12 ≤ 12 * base.length := by
    calc (12 : Nat) = 12 * 1 := by omega
      _ ≤ 12 * base.length := Nat.mul_le_mul_left 12 hb1
  omega

theorem preparedRecs_length (recs : List Recommendation) :
    (preparedRecs recs).length = 12 := by
  rw [preparedRecs_eq]
  exact cycleTake_length (withFallback recs) (withFallback_ne_nil recs)

theorem padWhile_of_len (f : Nat) (ph : BookEntry) (l : List BookEntry)
    (h : ¬ l.length < 4) : padWhile f ph l = l := by
  cases f with
  | zero => rfl
  | succ f => rw [padWhile, if_neg h]

theorem mkMonthBooks_of_four (recs4 : List Recommendation) (h : recs4.length = 4) :
    mkMonthBooks recs4 = recs4.map recToBook := by
  simp only [mkMonthBooks]
  have hlen : (recs4.map recToBook).length = 4 := by
    rw [List.length_map, h]
  rw [padWhile_of_len 4 additionalBookPlaceholder _ (by omega)]
  rw [List.take_of_length_le (by omega)]
  rw [if_neg (by omega)]

theorem finalValidate_of_four (mp : MonthPlan) (h : mp.books.length = 4) :
    finalValidate mp = mp := by
  unfold finalValidate
  rw [if_neg (by omega)]

/-- Characterization of the future-months allocator: three months,
each mapping the next contiguous four-record slice of the cyclic
12-entry prefix of the fallback-augmented ranked list. -/
theorem allocateFuture_eq (startMonth : Nat) (recs : List Recommendation) :
    allocateFuture startMonth recs = (List.range 3).map (fun i =>
      { month := monthLabel startMonth i
        books := (((cycleTake 12 (withFallback recs)).drop (i * 4)).take 4).map recToBook }) := by
  unfold allocateFuture
  rw [List.map_map]
  apply List.map_congr_left
  intro i hi
  have hi3 : i < 3 := List.mem_range.mp hi
  have hplen : (preparedRecs recs).length = 12 := preparedRecs_length recs
  have hslice : (((preparedRecs recs).drop (i * 4)).take 4).length = 4 := by
    rw [List.length_take, List.length_drop, hplen]
    interval_cases i <;> simp
  simp only [Function.comp_apply]
  rw [finalValidate_of_four _ (by
    simp only []
    rw [mkMonthBooks_of_four _ hslice, List.length_map, hslice])]
  rw [mkMonthBooks_of_four _ hslice, preparedRecs_eq]

theorem allocateFuture_length (startMonth : Nat) (recs : List Recommendation) :
    (allocateFuture startMonth recs).length = 3 := by
  rw [allocateFuture_eq]
  simp

theorem allocateFuture_books_length (startMonth : Nat) (recs : List Recommendation) :
    ∀ mp ∈ allocateFuture startMonth recs, mp.books.length = 4 := by
  rw [allocateFuture_eq]
  intro mp hmp
  rcases List.mem_map.mp hmp with ⟨i, hi, rfl⟩
  have hi3 : i < 3 := List.mem_range.mp hi
  have hclen : (cycleTake 12 (withFallback recs)).length = 12 :=
    cycleTake_length _ (withFallback_ne_nil recs)
  simp only [List.length_map, List.length_take, List.length_drop, hclen]
  interval_cases i <;> simp

theorem extendWhile_length_of : ∀ (fuel : Nat) (l : List Recommendation),
    l ≠ [] → l.length < 12 → 12 - l.length ≤ fuel →
    (extendWhile fuel l).length = 12 := by
  intro fuel
  induction fuel with
  | zero => intro l hne h12 hf; omega
  | succ f ih =>
    intro l hne h12 hf
    rw [extendWhile, if_pos h12]
    have hb1 : 1 ≤ l.length := List.length_pos.mpr hne
    have hlen' : (l ++ l.take (12 - l.length)).length =
        l.length + min (12 - l.length) l.length := by
      rw [List.length_append, List.length_take]
    by_cases h' : (l ++ l.take (12 - l.length)).length < 12
    · apply ih _ (by
        intro hnil
        rw [hnil] at hlen'
        simp at hlen'
        omega) h'
      omega
    · rw [extendWhile_stop f _ h']
      omega

theorem extendWhile_fuel_stable : ∀ (fuel j : Nat) (l : List Recommendation),
    l ≠ [] → 12 - l.length ≤ fuel →
    extendWhile (fuel + j) l = extendWhile fuel l := by
  intro fuel
  induction fuel with
  | zero =>
    intro j l hne hf
    have h12 : ¬ l.length < 12 := by omega
    rw [Nat.zero_add, extendWhile_stop j l h12]
    rfl
  | succ f ih =>
    intro j l hne hf
    by_cases h12 : l.length < 12
    · have hshift : f + 1 + j = (f + j) + 1 := by omega
      rw [hshift, extendWhile, if_pos h12, extendWhile, if_pos h12]
      have hb1 : 1 ≤ l.length := List.length_pos.mpr hne
      apply ih j _ (fun hnil => hne (List.append_eq_nil.mp hnil).1)
      rw [List.length_append, List.length_take]
      omega
    · rw [extendWhile_stop (f + 1 + j) l h12, extendWhile_stop (f + 1) l h12]

theorem withFallback_length_lt (recs : List Recommendation) (h : recs.length < 12) :
    (withFallback recs).length < 12 := by
  unfold withFallback
  by_cases h6 : recs.length < 6
  · rw [if_pos h6, List.length_append]
    have : fallbackRecommendations.length = 3 := by rfl
    omega
  · rw [if_neg h6]
    exact h

/-- C1: for every input list of parsed recommendation records (any
length, including 0, 1, 5, 11, 12, 30), the future-months allocator
yields exactly 3 buckets of exactly 4 book entries each, and those
buckets partition the fallback-augmented, cyclically duplicated,
12-truncated ranked list into contiguous groups of 4 in rank order. -/
theorem c1_allocator_three_months_of_four (startMonth : Nat)
    (records : List Recommendation) :
    (allocateFuture startMonth records).length = 3 ∧
    (∀ mp ∈ allocateFuture startMonth records, mp.books.length = 4) ∧
    (cycleTake 12 (withFallback records)).length = 12 ∧
    allocateFuture startMonth records = (List.range 3).map (fun i =>
      { month := monthLabel startMonth i
        books := (((cycleTake 12 (withFallback records)).drop (i * 4)).take 4).map recToBook }) :=
  ⟨allocateFuture_length startMonth records,
   allocateFuture_books_length startMonth records,
   cycleTake_length _ (withFallback_ne_nil records),
   allocateFuture_eq startMonth records⟩

/-- C10: whenever the cyclic-duplication while-loop is entered (fewer
than 12 records), the list it starts from is non-empty thanks to the
fallback records, each iteration strictly increases the length, the
loop reaches length exactly 12, and further fuel does not change the
result (the loop terminates within the modelled fuel). -/
theorem c10_extend_loop_terminates (records : List Recommendation)
    (h : records.length < 12) :
    withFallback records ≠ [] ∧
    (∀ l : List Recommendation, l ≠ [] → l.length < 12 →
      l.length < (l ++ l.take (12 - l.length)).length) ∧
    (extendWhile 12 (withFallback records)).length = 12 ∧
    (∀ j, extendWhile (12 + j) (withFallback records) =
      extendWhile 12 (withFallback records)) := by
  refine ⟨withFallback_ne_nil records, ?_, ?_, ?_⟩
  · intro l hne h12
    have hb1 : 1 ≤ l.length := List.length_pos.mpr hne
    rw [List.length_append, List.length_take]
    omega
  · exact extendWhile_length_of 12 _ (withFallback_ne_nil records)
      (withFallback_length_lt records h) (by omega)
  · intro j
    exact extendWhile_fuel_stable 12 j _ (withFallback_ne_nil records) (by omega)

/-- Witness for C10 at the concrete input of zero parsed records. -/
theorem c10_extend_loop_terminates_witness :
    withFallback [] ≠ [] ∧
    (∀ l : List Recommendation, l ≠ [] → l.length < 12 →
      l.length < (l ++ l.take (12 - l.length)).length) ∧
    (extendWhile 12 (withFallback [])).length = 12 ∧
    (∀ j, extendWhile (12 + j) (withFallback []) = extendWhile 12 (withFallback [])) :=
  c10_extend_loop_terminates [] (by decide)

theorem emptyReadingPlan_shape (startMonth : Nat) :
    (emptyReadingPlan startMonth).length = 3 ∧
    ∀ mp ∈ emptyReadingPlan startMonth, mp.books.length = 0 := by
  constructor
  · simp [emptyReadingPlan]
  · intro mp hmp
    rcases List.mem_map.mp hmp with ⟨i, -, rfl⟩
    rfl

theorem errorResponse_shape (startMonth : Nat) (msg : String) :
    (errorResponse startMonth msg).future.length = 3 ∧
    (∀ mp ∈ (errorResponse startMonth msg).future, mp.books.length = 0) ∧
    (errorResponse startMonth msg).error = some msg :=
  ⟨(emptyReadingPlan_shape startMonth).1, (emptyReadingPlan_shape startMonth).2, rfl⟩

/-- Shape of the route response on every path: three future months,
each with 0 (failure skeleton) or 4 (allocation reached) books, and 4
whenever the response carries no error. -/
theorem route_future_shape (startMonth : Nat) (catalog : List Book) (age : Int)
    (selected_genres : List String) (llm : Except String String)
    (save : Except String String) :
    (generate_recommendation_plan startMonth catalog age selected_genres llm save).future.length = 3 ∧
    (∀ mp ∈ (generate_recommendation_plan startMonth catalog age selected_genres llm save).future,
      mp.books.length = 0 ∨ mp.books.length = 4) ∧
    ((generate_recommendation_plan startMonth catalog age selected_genres llm save).error = none →
      ∀ mp ∈ (generate_recommendation_plan startMonth catalog age selected_genres llm save).future,
        mp.books.length = 4) := by
  unfold generate_recommendation_plan
  by_cases hp : (get_flexible_books catalog age selected_genres 15).isEmpty
  · simp only [if_pos hp]
    exact ⟨(errorResponse_shape _ _).1,
      fun mp hmp => Or.inl ((errorResponse_shape _ _).2.1 mp hmp),
      fun hnone => by
        have := (errorResponse_shape startMonth ("No books found in database")).2.2
        rw [hnone] at this
        cases this⟩
  · simp only [if_neg hp]
    cases llm with
    | error e =>
      exact ⟨(errorResponse_shape _ _).1,
        fun mp hmp => Or.inl ((errorResponse_shape _ _).2.1 mp hmp),
        fun hnone => by
          have := (errorResponse_shape startMonth (("OpenAI API error: ") ++ e)).2.2
          rw [hnone] at this
          cases this⟩
    | ok raw =>
      cases hparse : parsePipeline raw with
      | error e =>
        simp only [hparse]
        exact ⟨(errorResponse_shape _ _).1,
          fun mp hmp => Or.inl ((errorResponse_shape _ _).2.1 mp hmp),
          fun hnone => by
            have := (errorResponse_shape startMonth
              (("Error processing recommendations: ") ++ e)).2.2
            rw [hnone] at this
            cases this⟩
      | ok recommendations =>
        simp only [hparse]
        cases save with
        | ok plan_id =>
          exact ⟨allocateFuture_length startMonth recommendations,
            fun mp hmp => Or.inr (allocateFuture_books_length startMonth recommendations mp hmp),
            fun _ => allocateFuture_books_length startMonth recommendations⟩
        | error save_error =>
          exact ⟨allocateFuture_length startMonth recommendations,
            fun mp hmp => Or.inr (allocateFuture_books_length startMonth recommendations mp hmp),
            fun _ => allocateFuture_books_length startMonth recommendations⟩

/-- A one-book fixture catalog matching a 9-year-old Fantasy reader. -/
def demoCatalog : List Book :=
  [{ title := ("Demo Fantasy Book"), author := ("Demo Author"),
     genres := [("Fantasy")], ageMin := 8, ageMax := 12 }]

/-- Counterexample to C2: on the LLM-failure path the response's
future months each contain 0 book entries, not 4. -/
theorem c2_counterexample_failure_path_buckets :
    (generate_recommendation_plan 0 demoCatalog 9 [("Fantasy")]
      (Except.error ("timeout")) (Except.ok ("id1"))).future.length = 3 ∧
    ¬ (∀ mp ∈ (generate_recommendation_plan 0 demoCatalog 9 [("Fantasy")]
      (Except.error ("timeout")) (Except.ok ("id1"))).future, mp.books.length = 4) := by
  constructor
  · rfl
  · intro h
    have h0 : (generate_recommendation_plan 0 demoCatalog 9 [("Fantasy")]
        (Except.error ("timeout")) (Except.ok ("id1"))).future =
        emptyReadingPlan 0 := rfl
    rw [h0] at h
    have := h ⟨monthLabel 0 0, []⟩ (by
      show (⟨monthLabel 0 0, []⟩ : MonthPlan) ∈ (List.range 3).map _
      exact List.mem_map.mpr ⟨0, by decide, rfl⟩)
    simp at this

/-- C2 (amended): every response has exactly three future buckets;
each bucket has 0 books (failure paths: empty candidate pool, LLM
error, parse failure) or exactly 4 (whenever allocation ran); when
the response carries no error every bucket has exactly 4. -/
theorem c2_amended_future_buckets (startMonth : Nat) (catalog : List Book) (age : Int)
    (selected_genres : List String) (llm : Except String String)
    (save : Except String String) :
    (generate_recommendation_plan startMonth catalog age selected_genres llm save).future.length = 3 ∧
    (∀ mp ∈ (generate_recommendation_plan startMonth catalog age selected_genres llm save).future,
      mp.books.length = 0 ∨ mp.books.length = 4) ∧
    ((generate_recommendation_plan startMonth catalog age selected_genres llm save).error = none →
      ∀ mp ∈ (generate_recommendation_plan startMonth catalog age selected_genres llm save).future,
        mp.books.length = 4) :=
  route_future_shape startMonth catalog age selected_genres llm save

/-- A canned successful LLM reply with two well-formed elements. -/
def demoLLMText : String :=
  "[\x7b\"name\":\"Alpha\",\"likely_score\":9,\"books\":[\"A1\"],\"rationale\":\"ra\"\x7d," ++
  "\x7b\"name\":\"Beta\",\"likely_score\":8,\"books\":[\"B1\",\"B2\"],\"rationale\":\"rb\"\x7d]"

/-- Witness for C2 (amended) on the success path: with a non-empty
catalog, a parsed reply and a successful save, the response carries no
error and every future bucket has exactly 4 entries. -/
theorem c2_amended_future_buckets_witness :
    ∀ mp ∈ (generate_recommendation_plan 0 demoCatalog 9 [("Fantasy")]
      (Except.ok demoLLMText) (Except.ok ("id1"))).future, mp.books.length = 4 :=
  (c2_amended_future_buckets 0 demoCatalog 9 [("Fantasy")]
    (Except.ok demoLLMText) (Except.ok ("id1"))).2.2 rfl

/-- C9: with an empty catalog (so even the fully relaxed query finds
nothing) the route returns the structurally valid empty plan — empty
current list, three empty future months, no records, and the fixed
error string — and the result does not depend on the LLM outcome at
all (the call is never made) nor on the persistence outcome. -/
theorem c9_empty_catalog_empty_plan (startMonth : Nat) (age : Int)
    (selected_genres : List String) (llm : Except String String)
    (save : Except String String) :
    generate_recommendation_plan startMonth [] age selected_genres llm save =
      { current := [], future := emptyReadingPlan startMonth, recommendations := [],
        planId := none, message := none,
        error := some ("No books found in database") } := by
  have hflex : get_flexible_books [] age selected_genres 15 = [] := by
    unfold get_flexible_books tierStrict tierAge
    simp
  unfold generate_recommendation_plan
  rw [hflex]
  rfl

/-- The no-JSON fixture: raw model text with no JSON array at all. -/
def noJsonText : String := ("Sorry, I cannot provide recommendations today.")

/-- C4: the response parse never escapes as an exception — every raw
text yields a structured response with three future months — and on
text containing no JSON array the regex extraction finds nothing, the
parse signals a failure diagnostic, and the route answers with an
empty record list and an error string instead of raising. -/
theorem c4_parser_never_raises :
    (∀ (startMonth : Nat) (raw : String) (save : Except String String),
      (generate_recommendation_plan startMonth demoCatalog 9 [("Fantasy")]
        (Except.ok raw) save).future.length = 3) ∧
    extractJsonArray noJsonText = none ∧
    parsePipeline noJsonText = Except.error ("JSONDecodeError") ∧
    (generate_recommendation_plan 0 demoCatalog 9 [("Fantasy")]
        (Except.ok noJsonText) (Except.ok ("id1"))).recommendations = [] ∧
    (generate_recommendation_plan 0 demoCatalog 9 [("Fantasy")]
        (Except.ok noJsonText) (Except.ok ("id1"))).error =
      some (("Error processing recommendations: ") ++ ("JSONDecodeError")) := by
  refine ⟨?_, rfl, rfl, rfl, rfl⟩
  intro startMonth raw save
  exact (route_future_shape startMonth demoCatalog 9 [("Fantasy")] (Except.ok raw) save).1

/-- The end-to-end fixture reply with a single trailing comma. -/
def zedMalformed : String :=
  "[\x7b\"name\":\"Zed Saga\",\"likely_score\":9,\"books\":[\"Zed 1\",\"Zed 2\"],\"rationale\":\"fits\"\x7d,]"

/-- The same reply with the trailing comma removed. -/
def zedCorrected : String :=
  "[\x7b\"name\":\"Zed Saga\",\"likely_score\":9,\"books\":[\"Zed 1\",\"Zed 2\"],\"rationale\":\"fits\"\x7d]"

/-- C5: parsing the trailing-comma reply recovers and yields exactly
the records of the corrected JSON — one record named Zed Saga with two
sample books and confidence score 9. -/
theorem c5_trailing_comma_recovery :
    parsePipeline zedMalformed = parsePipeline zedCorrected ∧
    Except.map (fun l => l.map (fun r => (r.name, r.sample_books.length, r.confidence_score)))
      (parsePipeline zedMalformed) = Except.ok [(("Zed Saga"), 2, 9)] :=
  ⟨rfl, rfl⟩

/-- C3: with `minCount` at most the catalog size, the flexible query
returns at least `min minCount catalogSize` books and returns exactly
the least-relaxed tier whose count reaches `minCount`; a more relaxed
tier is used only when every stricter tier falls short. -/
theorem c3_flexible_query_tiers (catalog : List Book) (age : Int)
    (selected_genres : List String) (min_books : Nat)
    (h : min_books ≤ catalog.length) :
    min min_books catalog.length ≤
      (get_flexible_books catalog age selected_genres min_books).length ∧
    (min_books ≤ (tierStrict catalog age selected_genres).length →
      get_flexible_books catalog age selected_genres min_books =
        tierStrict catalog age selected_genres) ∧
    ((tierStrict catalog age selected_genres).length < min_books →
      min_books ≤ (tierAge catalog age).length →
      get_flexible_books catalog age selected_genres min_books = tierAge catalog age) ∧
    ((tierStrict catalog age selected_genres).length < min_books →
      (tierAge catalog age).length < min_books →
      get_flexible_books catalog age selected_genres min_books = catalog ∧
      min_books ≤ catalog.length) := by
  unfold get_flexible_books
  by_cases h1 : min_books ≤ (tierStrict catalog age selected_genres).length
  · rw [if_pos h1]
    exact ⟨le_trans (min_le_left _ _) h1, fun _ => rfl,
      fun hlt _ => absurd h1 (by omega), fun hlt _ => absurd h1 (by omega)⟩
  · rw [if_neg h1]
    by_cases h2 : min_books ≤ (tierAge catalog age).length
    · rw [if_pos h2]
      exact ⟨le_trans (min_le_left _ _) h2, fun hge => absurd hge h1,
        fun _ _ => rfl, fun _ hlt => absurd h2 (by omega)⟩
    · rw [if_neg h2]
      exact ⟨min_le_right _ _, fun hge => absurd hge h1,
        fun _ hge => absurd hge h2, fun _ _ => ⟨rfl, h⟩⟩

/-- Witness for C3 at a concrete one-book catalog with `minCount = 1`:
the strict tier already satisfies the requirement. -/
theorem c3_flexible_query_tiers_witness :
    min 1 demoCatalog.length ≤ (get_flexible_books demoCatalog 9 [("Fantasy")] 1).length ∧
    (1 ≤ (tierStrict demoCatalog 9 [("Fantasy")]).length →
      get_flexible_books demoCatalog 9 [("Fantasy")] 1 = tierStrict demoCatalog 9 [("Fantasy")]) ∧
    ((tierStrict demoCatalog 9 [("Fantasy")]).length < 1 →
      1 ≤ (tierAge demoCatalog 9).length →
      get_flexible_books demoCatalog 9 [("Fantasy")] 1 = tierAge demoCatalog 9) ∧
    ((tierStrict demoCatalog 9 [("Fantasy")]).length < 1 →
      (tierAge demoCatalog 9).length < 1 →
      get_flexible_books demoCatalog 9 [("Fantasy")] 1 = demoCatalog ∧
      1 ≤ demoCatalog.length) :=
  c3_flexible_query_tiers demoCatalog 9 [("Fantasy")] 1 (by decide)

/-- C6: for every parsed JSON element whose fields, when present, have
the schema types (string name, array-of-strings books, integer score,
string rationale), the element is dropped exactly when the name is
empty/missing or the books array is empty/missing; a surviving record
pairs every book title with the series name as author label, defaults
a missing `likely_score` to 8, and defaults a missing `rationale` to
the empty string. -/
theorem c6_element_filter_and_defaults (kvs : List (String × Json)) (s : String)
    (ts : List String) (n : Int) (r : String)
    (hs : objGet kvs ("name") (Json.str ("")) = Json.str s)
    (hb : objGet kvs ("books") (Json.arr []) = Json.arr (ts.map Json.str))
    (hn : objGet kvs ("likely_score") (Json.num 8) = Json.num n)
    (hr : objGet kvs ("rationale") (Json.str ("")) = Json.str r) :
    processElem (Json.obj kvs) = Except.ok (
      if s = ("") ∨ ts = [] then none
      else some
        { name := s, justbookify_link := mkLink s, rationale := Json.str r,
          confidence_score := n,
          sample_books := ts.map (fun t =>
            { title := Json.str t, author := some (Json.str s) }) }) ∧
    (objLookup kvs ("name") = none → s = ("")) ∧
    (objLookup kvs ("likely_score") = none → n = 8) ∧
    (objLookup kvs ("rationale") = none → r = ("")) ∧
    (objLookup kvs ("books") = none → ts = []) := by
  refine ⟨?_, ?_, ?_, ?_, ?_⟩
  · simp only [processElem]
    rw [hs, hb, hn, hr]
    simp only [iterTitles]
    by_cases hse : s = ("")
    · subst hse
      have : pyTruthy (Json.str ("")) = false := rfl
      rw [this]
      simp
    · by_cases hts : ts = []
      · subst hts
        simp [pyTruthy]
      · have hf : s.isEmpty = false := by
          cases he : s.isEmpty
          · rfl
          · exact absurd ((String.isEmpty_iff s).mp he) hse
        have h1 : pyTruthy (Json.str s) = true := by
          simp [pyTruthy, hf]
        have h2 : (ts.map Json.str).isEmpty = false := by
          simp [List.isEmpty_iff, hts]
        rw [h1, h2]
        simp only [Bool.not_false, Bool.and_self, if_true]
        rw [if_neg (by simp [hse, hts])]
        rw [List.map_map]
        rfl
  · intro hnone
    rw [objGet, hnone] at hs
    simpa using hs.symm
  · intro hnone
    rw [objGet, hnone] at hn
    simpa using hn.symm
  · intro hnone
    rw [objGet, hnone] at hr
    simpa using hr.symm
  · intro hnone
    rw [objGet, hnone] at hb
    have : ts.map Json.str = [] := by
      have := hb.symm
      injection this
    simpa using this

/-- Witness for C6 at a concrete fully-populated element. -/
theorem c6_element_filter_and_defaults_witness :
    processElem (Json.obj [(("name"), Json.str ("Gamma")), (("likely_score"), Json.num 9),
        (("books"), Json.arr [Json.str ("G1")]), (("rationale"), Json.str ("rg"))]) =
      Except.ok (
      if ("Gamma") = ("") ∨ ([("G1")] : List String) = [] then none
      else some
        { name := ("Gamma"), justbookify_link := mkLink ("Gamma"),
          rationale := Json.str ("rg"), confidence_score := 9,
          sample_books := [("G1")].map (fun t =>
            { title := Json.str t, author := some (Json.str ("Gamma")) }) }) ∧
    (objLookup [(("name"), Json.str ("Gamma")), (("likely_score"), Json.num 9),
        (("books"), Json.arr [Json.str ("G1")]), (("rationale"), Json.str ("rg"))] ("name") = none →
      ("Gamma") = ("")) ∧
    (objLookup [(("name"), Json.str ("Gamma")), (("likely_score"), Json.num 9),
        (("books"), Json.arr [Json.str ("G1")]), (("rationale"), Json.str ("rg"))] ("likely_score") = none →
      (9 : Int) = 8) ∧
    (objLookup [(("name"), Json.str ("Gamma")), (("likely_score"), Json.num 9),
        (("books"), Json.arr [Json.str ("G1")]), (("rationale"), Json.str ("rg"))] ("rationale") = none →
      ("rg") = ("")) ∧
    (objLookup [(("name"), Json.str ("Gamma")), (("likely_score"), Json.num 9),
        (("books"), Json.arr [Json.str ("G1")]), (("rationale"), Json.str ("rg"))] ("books") = none →
      ([("G1")] : List String) = []) :=
  c6_element_filter_and_defaults _ ("Gamma") [("G1")] 9 ("rg") rfl rfl rfl rfl

theorem insertDesc_mem (x a : Recommendation) (l : List Recommendation) :
    a ∈ insertDesc x l ↔ a = x ∨ a ∈ l := by
  induction l with
  | nil => simp [insertDesc]
  | cons y ys ih =>
    rw [insertDesc]
    by_cases h : y.confidence_score ≤ x.confidence_score
    · rw [if_pos h]
      simp
    · rw [if_neg h]
      simp [ih]
      tauto

theorem insertDesc_pairwise (x : Recommendation) (l : List Recommendation)
    (h : List.Pairwise (fun a b => b.confidence_score ≤ a.confidence_score) l) :
    List.Pairwise (fun a b => b.confidence_score ≤ a.confidence_score) (insertDesc x l) := by
  induction l with
  | nil => simp [insertDesc]
  | cons y ys ih =>
    rw [insertDesc]
    rcases List.pairwise_cons.mp h with ⟨hy, hys⟩
    by_cases hle : y.confidence_score ≤ x.confidence_score
    · rw [if_pos hle]
      refine List.pairwise_cons.mpr ⟨?_, h⟩
      intro b hb
      rcases List.mem_cons.mp hb with rfl | hb'
      · exact hle
      · exact le_trans (hy b hb') hle
    · rw [if_neg hle]
      refine List.pairwise_cons.mpr ⟨?_, ih hys⟩
      intro b hb
      rcases (insertDesc_mem x b ys).mp hb with rfl | hb'
      · omega
      · exact hy b hb'

theorem sortDesc_pairwise (l : List Recommendation) :
    List.Pairwise (fun a b => b.confidence_score ≤ a.confidence_score) (sortDesc l) := by
  induction l with
  | nil => exact List.Pairwise.nil
  | cons x xs ih => exact insertDesc_pairwise x (sortDesc xs) ih

theorem insertDesc_filter (c : Int) (x : Recommendation) (l : List Recommendation) :
    (insertDesc x l).filter (fun q => q.confidence_score == c) =
      if x.confidence_score == c then
        x :: l.filter (fun q => q.confidence_score == c)
      else l.filter (fun q => q.confidence_score == c) := by
  induction l with
  | nil =>
    by_cases hx : x.confidence_score == c <;>
      simp [insertDesc, List.filter_cons, hx]
  | cons y ys ih =>
    rw [insertDesc]
    by_cases hle : y.confidence_score ≤ x.confidence_score
    · rw [if_pos hle]
      by_cases hx : x.confidence_score == c <;>
        simp [List.filter_cons, hx]
    · rw [if_neg hle]
      by_cases hx : x.confidence_score == c
      · by_cases hy : y.confidence_score == c
        · exfalso
          have hx' : x.confidence_score = c := by simpa using hx
          have hy' : y.confidence_score = c := by simpa using hy
          omega
        · simp [List.filter_cons, hy, hx, ih]
      · by_cases hy : y.confidence_score == c
        · simp [List.filter_cons, hy, hx, ih]
        · simp [List.filter_cons, hy, hx, ih]

theorem sortDesc_filter (c : Int) (l : List Recommendation) :
    (sortDesc l).filter (fun q => q.confidence_score == c) =
      l.filter (fun q => q.confidence_score == c) := by
  induction l with
  | nil => rfl
  | cons x xs ih =>
    show (insertDesc x (sortDesc xs)).filter _ = _
    rw [insertDesc_filter]
    by_cases hx : x.confidence_score == c <;>
      simp [List.filter_cons, hx, ih]

/-- C7: whenever the parse succeeds, the final record list is the
stable descending sort of the normalized records: scores are
non-increasing along the list, and for every score value the records
carrying it appear in exactly their pre-sort (input) order. -/
theorem c7_records_sorted_stable (raw : String) (pre : List Recommendation)
    (h : parsePreSort raw = Except.ok pre) :
    parsePipeline raw = Except.ok (sortDesc pre) ∧
    List.Pairwise (fun a b => b.confidence_score ≤ a.confidence_score) (sortDesc pre) ∧
    ∀ c : Int, (sortDesc pre).filter (fun q => q.confidence_score == c) =
      pre.filter (fun q => q.confidence_score == c) := by
  refine ⟨?_, sortDesc_pairwise pre, fun c => sortDesc_filter c pre⟩
  rw [parsePipeline, h]

/-- The pre-sort record list of the canned two-element reply. -/
def demoPreSortRecords : List Recommendation :=
  ((parsePreSort demoLLMText).toOption).getD []

/-- Witness for C7 at the canned two-element reply. -/
theorem c7_records_sorted_stable_witness :
    parsePipeline demoLLMText = Except.ok (sortDesc demoPreSortRecords) ∧
    List.Pairwise (fun a b => b.confidence_score ≤ a.confidence_score)
      (sortDesc demoPreSortRecords) ∧
    ∀ c : Int, (sortDesc demoPreSortRecords).filter (fun q => q.confidence_score == c) =
      demoPreSortRecords.filter (fun q => q.confidence_score == c) :=
  c7_records_sorted_stable demoLLMText demoPreSortRecords rfl

/-- Remove only the first occurrence of `pat` (fuel = list length). -/
def removeFirstAux (pat : List Char) : Nat → List Char → List Char
  | _, [] => []
  | 0, l => l
  | Nat.succ f, c :: rest =>
    if listStartsWith pat (c :: rest) then (c :: rest).drop pat.length
    else c :: removeFirstAux pat f rest

/-- Remove only the first occurrence of `pat` from `s`. -/
def removeFirst (s pat : String) : String :=
  String.mk (removeFirstAux pat.toList s.toList.length s.toList)

/-- The spec's reading of the strip step (spec 4.4 steps 1-3), for
comparison with the code's `cleanNameOf`: lowercase, remove each strip
target substring *only once* in longest-specific-first order, then
collapse whitespace.  Named per the spec's words; the code instead
removes every occurrence (`str.replace`). -/
def specOncePerPassClean (series_name : String) : String :=
  let c0 := pyLower series_name
  let c1 := removeFirst c0 (" series name")
  let c2 := removeFirst c1 ("series name")
  let c3 := removeFirst c2 (" series")
  let c4 := removeFirst c3 ("series")
  pyStrip (joinSpace (pySplitWs c4))

/-- Counterexample to C8: the code produces the query term
"the mysteries" for "The Mysteries Series Collection", not
"mysteries" ("the" is not a generic-suffix token); moreover the code
removes every occurrence of each strip target, not one per pass —
on "ASeries BSeries CSeries" the once-per-pass reading of the spec
yields a different string than the code. -/
theorem c8_counterexample_query_term :
    searchTermPre ("The Mysteries Series Collection") = ("the mysteries") ∧
    ("the mysteries") ≠ ("mysteries") ∧
    cleanNameOf ("ASeries BSeries CSeries") = ("a b c") ∧
    specOncePerPassClean ("ASeries BSeries CSeries") = ("a bseries cseries") ∧
    cleanNameOf ("ASeries BSeries CSeries") ≠
      specOncePerPassClean ("ASeries BSeries CSeries") :=
  ⟨rfl, by decide, rfl, rfl, by decide⟩

/-- C8 (amended): the link synthesizer is a pure function of the
series name that removes the strip-target substrings in
longest-specific-first precedence with *every* occurrence replaced
(`str.replace` semantics), and for "The Mysteries Series Collection"
the synthesized query term is "the mysteries" (URL-encoded
"the%20mysteries" in the final link). -/
theorem c8_amended_link_synthesizer :
    searchTermPre ("The Mysteries Series Collection") = ("the mysteries") ∧
    mkLink ("The Mysteries Series Collection") =
      ("https://www.justbookify.com/search?q=the%20mysteries&options%5B") ++
        ("prefix%5D=last") ∧
    cleanNameOf ("The Mysteries Series Collection") = ("the mysteries collection") ∧
    cleanNameOf ("ASeries BSeries CSeries") = ("a b c") :=
  ⟨rfl, rfl, rfl, rfl⟩
